import Mathlib

/-
Verification of the fetchData HTTP convenience wrapper (src/fetchData.ts).

The development shallowly embeds the request-construction pipeline of the
source file: the per-method shortcut table built by `createFetchData`, the
deep merge of client defaults with per-call options (the `deepmerge`
dependency), the body/header normalization of `optionsReducer`, the URL
composition of `constructURL`, and the response interpretation performed by
`internalFetch` after the transport returns.

JavaScript values that can appear as a request body are modelled by
`JsonValue`; JS strings are modelled by Lean `String` viewed as its list of
characters, and the JS string operations used by the source
(`startsWith`, `endsWith`, `replace` of one leading slash) are defined on
that view.
-/

namespace FetchDataModel

/-- A JavaScript value as far as the body-handling code observes it:
`typeof` distinguishes strings, numbers, booleans from objects, and
`JSON.stringify` serializes the whole tree. -/
inductive JsonValue where
  | null
  | jbool (b : Bool)
  | num (n : Int)
  | str (s : String)
  | arr (elements : List JsonValue)
  | obj (fields : List (String × JsonValue))
deriving Repr

/-- Escaping of one character inside a JSON string literal, as
`JSON.stringify` performs it for the characters that need it. -/
def escapeJsonChar (c : Char) : List Char :=
  if c = '"' then ['\\', '"']
  else if c = '\\' then ['\\', '\\']
  else if c = '\n' then ['\\', 'n']
  else if c = '\t' then ['\\', 't']
  else if c = '\r' then ['\\', 'r']
  else [c]

/-- Escaping of a whole string for inclusion in JSON output. -/
def escapeJsonString (s : String) : String :=
  String.mk (s.toList.flatMap escapeJsonChar)

mutual

/-- Models `JSON.stringify` from the host environment, which
`optionsReducer` (src/fetchData.ts line 111) applies to request bodies. -/
def jsonStringify : JsonValue → String
  | .null => "null"
  | .jbool b => if b then "true" else "false"
  | .num n => toString n
  | .str s => "\"" ++ escapeJsonString s ++ "\""
  | .arr elements => "[" ++ stringifyElements elements ++ "]"
  | .obj fields => "\x7b" ++ stringifyFields fields ++ "\x7d"

/-- Comma-separated serialization of JSON array elements. -/
def stringifyElements : List JsonValue → String
  | [] => ""
  | [v] => jsonStringify v
  | v :: rest => jsonStringify v ++ "," ++ stringifyElements rest

/-- Comma-separated serialization of JSON object fields. -/
def stringifyFields : List (String × JsonValue) → String
  | [] => ""
  | [(k, v)] => "\"" ++ escapeJsonString k ++ "\":" ++ jsonStringify v
  | (k, v) :: rest =>
      "\"" ++ escapeJsonString k ++ "\":" ++ jsonStringify v ++ "," ++ stringifyFields rest

end

/-- A JS plain object whose values are strings (headers, key-value search
parameters), as an ordered association list; JS object keys are unique, and
all operations below read the first occurrence of a key. -/
abbrev StringMap := List (String × String)

/-- Property read `map[key]`: the value at `key`, if present. -/
def lookupEntry (entries : StringMap) (key : String) : Option String :=
  (entries.find? (fun kv => kv.1 == key)).map (fun kv => kv.2)

/-- Models the object spread `\x7b...entries, key: value\x7d`: the value at
`key` is replaced in place when the key exists and appended otherwise. -/
def setEntry (entries : StringMap) (key value : String) : StringMap :=
  if (entries.find? (fun kv => kv.1 == key)).isSome then
    entries.map (fun kv => if kv.1 == key then (kv.1, value) else kv)
  else entries ++ [(key, value)]

/-- Models the `deepmerge` dependency on an object whose values are strings
(e.g. the `headers` option): target keys are kept in place, a key present in
the source takes the source's value, and keys only in the source are
appended in order. String values are not mergeable, so the source value
replaces the target value wholesale per key. -/
def mergeStringMap (target source : StringMap) : StringMap :=
  target.map (fun kv => (kv.1, (lookupEntry source kv.1).getD kv.2))
  ++ source.filter (fun kv => (lookupEntry target kv.1).isNone)

/-- Property read on a JSON object's field list. -/
def findField (fields : List (String × JsonValue)) (key : String) : Option JsonValue :=
  (fields.find? (fun kv => kv.1 == key)).map (fun kv => kv.2)

mutual

/-- Models the `deepmerge` dependency on two JS values: plain objects merge
key by key (recursively), arrays concatenate, and in every other combination
the source value replaces the target value. -/
def mergeJson : JsonValue → JsonValue → JsonValue
  | .obj tf, .obj sf =>
      .obj (mergeFieldsInto tf sf ++ sf.filter (fun kv => (findField tf kv.1).isNone))
  | .arr ta, .arr sa => .arr (ta ++ sa)
  | _, s => s

/-- The target fields of a JSON object merge, each overridden or deep-merged
with the value the source holds at the same key. -/
def mergeFieldsInto : List (String × JsonValue) → List (String × JsonValue) →
    List (String × JsonValue)
  | [], _ => []
  | (k, tv) :: rest, source =>
      (match findField source k with
       | some sv => (k, mergeJson tv sv)
       | none => (k, tv)) :: mergeFieldsInto rest source

end

/-- The `HTTPMethod` enum of src/fetchData.ts (lines 10-16). -/
inductive HTTPMethod where
  | get
  | put
  | post
  | patch
  | delete
deriving Repr, DecidableEq

/-- The string value each `HTTPMethod` enum member carries. -/
def methodValue : HTTPMethod → String
  | .get => "get"
  | .put => "put"
  | .post => "post"
  | .patch => "patch"
  | .delete => "delete"

/-- The `ResponseBodyType` enum of src/fetchData.ts (lines 18-24): the name
of the response method used to extract the body. -/
inductive ResponseBodyType where
  | json
  | blob
  | text
  | formData
  | arrayBuffer
deriving Repr, DecidableEq

/-- A search-parameters option value: a string or a string-to-string
mapping. The source never reads this option; it is carried so that theorems
can state what happens to it. -/
inductive SearchParams where
  | str (s : String)
  | params (entries : StringMap)
deriving Repr, DecidableEq

/-- The options bag `FetchDataOptions` of src/fetchData.ts (lines 26-41),
restricted to the keys the claims are about. `urlBase` models the source's
`urlPrefix` key. Hooks are function values and are omitted: no claim under
proof depends on them. A missing key is `none`. -/
structure FetchDataOptions where
  method : Option String := none
  urlBase : Option String := none
  type : Option ResponseBodyType := none
  body : Option JsonValue := none
  headers : Option StringMap := none
  searchParams : Option SearchParams := none
deriving Repr

/-- The source's `isObject` (line 50): `typeof input === "object"` and not
`null`. Arrays and plain objects qualify; `null`, strings, numbers and
booleans do not. -/
def isObjectVal : JsonValue → Bool
  | .obj _ => true
  | .arr _ => true
  | _ => false

/-- `isObject(options.body)` where the body key may be absent. -/
def isObjectOpt : Option JsonValue → Bool
  | none => false
  | some v => isObjectVal v

/-- JS truthiness of `options.body`: absent, `null`, `false`, `0` and the
empty string are falsy; objects and arrays are always truthy. -/
def bodyTruthy : Option JsonValue → Bool
  | none => false
  | some .null => false
  | some (.jbool b) => b
  | some (.num n) => if n = 0 then false else true
  | some (.str s) => if s = "" then false else true
  | some (.arr _) => true
  | some (.obj _) => true

/-- The key of `CONTENT_TYPE_HEADER` (src/fetchData.ts line 57). -/
def contentTypeTitle : String := "Content-Type"

/-- The value of `CONTENT_TYPE_HEADER` (src/fetchData.ts line 58). -/
def contentTypeValue : String := "application/json;charset=utf-8"

/-- JS falsiness of `options.headers?.["Content-Type"]`: true when the
headers key is absent, when no `Content-Type` entry exists, or when the
entry's value is the empty string. -/
def contentTypeFalsy (headers : Option StringMap) : Bool :=
  match headers with
  | none => true
  | some hs =>
      match lookupEntry hs contentTypeTitle with
      | none => true
      | some v => v == ""

/-- The source's `optionsReducer` (src/fetchData.ts lines 80-116): for POST,
PUT and PATCH, inject the JSON content-type header when the body is an
object and the `Content-Type` header is falsy, then `JSON.stringify` the
body whenever the body is truthy; all other methods pass the options
through unchanged. The TS function mutates its argument in place; the
embedding returns the resulting options value. -/
def optionsReducer (options : FetchDataOptions) (httpMethod : HTTPMethod) : FetchDataOptions :=
  if httpMethod = HTTPMethod.post ∨ httpMethod = HTTPMethod.put ∨ httpMethod = HTTPMethod.patch then
    let withHeader :=
      if isObjectOpt options.body && contentTypeFalsy options.headers then
        { options with
            headers := some (setEntry (options.headers.getD []) contentTypeTitle contentTypeValue) }
      else options
    if bodyTruthy withHeader.body then
      { withHeader with
          body := some (JsonValue.str (jsonStringify (withHeader.body.getD JsonValue.null))) }
    else withHeader
  else options

/-- JS `s.startsWith(pat)` on the character-list view of strings. -/
def jsStartsWith (s pat : String) : Bool :=
  pat.toList.isPrefixOf s.toList

/-- JS `s.endsWith(pat)` on the character-list view of strings. -/
def jsEndsWith (s pat : String) : Bool :=
  pat.toList.isSuffixOf s.toList

/-- JS `s.replace` with the regex matching one leading slash and the empty
replacement: removes the first character when it is a slash. -/
def stripLeadingSlash (s : String) : String :=
  match s.toList with
  | '/' :: rest => String.mk rest
  | _ => s

/-- The source's `constructURL` (src/fetchData.ts lines 118-140). The
`urlBase` argument models `urlPrefix`: `none` is an absent argument, and the
source's `!urlPrefix` guard also treats the empty string as absent. -/
def constructURL (url : String) (urlBase : Option String) : String :=
  match urlBase with
  | none => url
  | some p =>
      if p = "" then url
      else
        let resultURL := if jsStartsWith url "/" then stripLeadingSlash url else url
        let resultBase := if jsEndsWith p "/" then p else p ++ "/"
        resultBase ++ resultURL

/-- The substring of a URL after its first question mark (its query string);
the empty string when no question mark occurs. Used only to state claims
about query strings. -/
def queryStringOf (url : String) : String :=
  String.mk ((url.toList.dropWhile (fun c => c ≠ '?')).drop 1)

/-- The substring of a string from index 1 on (`R[1:]`). Used only to state
claims. -/
def strTail (s : String) : String :=
  String.mk (s.toList.drop 1)

/-- First-some choice: the JS rule that a key present in the source (call
options) replaces a non-mergeable value from the target (defaults). -/
def pickCall {α : Type} (callSide targetSide : Option α) : Option α :=
  match callSide with
  | some v => some v
  | none => targetSide

/-- `deepmerge` on two optional string maps: a single present side is kept,
two present sides merge key by key. -/
def mergeStringMapOpt (target source : Option StringMap) : Option StringMap :=
  match target, source with
  | some t, some s => some (mergeStringMap t s)
  | none, some s => some s
  | some t, none => some t
  | none, none => none

/-- `deepmerge` on two optional body values: two present sides merge by
`mergeJson` (objects key by key, arrays by concatenation, otherwise the
call side replaces). -/
def mergeBodyOpt (target source : Option JsonValue) : Option JsonValue :=
  match target, source with
  | some t, some s => some (mergeJson t s)
  | none, some s => some s
  | some t, none => some t
  | none, none => none

/-- `deepmerge` on two optional search-parameter values: two mappings merge
key by key; in every other present-present combination the call side
replaces. -/
def mergeSearchParamsOpt (target source : Option SearchParams) : Option SearchParams :=
  match target, source with
  | some (.params t), some (.params s) => some (.params (mergeStringMap t s))
  | some _, some s => some s
  | none, some s => some s
  | some t, none => some t
  | none, none => none

/-- The call `deepMerge(defaultOptions, options)` of `createFetchData`
(src/fetchData.ts line 246), specialized to the options bag: each key takes
the call side's value when the defaults' value is not mergeable with it,
while the nested `headers`, structured `body` and mapping `searchParams`
values merge key by key. -/
def deepMergeOptions (defaults callOptions : FetchDataOptions) : FetchDataOptions where
  method := pickCall callOptions.method defaults.method
  urlBase := pickCall callOptions.urlBase defaults.urlBase
  type := pickCall callOptions.type defaults.type
  body := mergeBodyOpt defaults.body callOptions.body
  headers := mergeStringMapOpt defaults.headers callOptions.headers
  searchParams := mergeSearchParamsOpt defaults.searchParams callOptions.searchParams

/-- The outgoing request as `internalFetch` constructs it (src/fetchData.ts
lines 171-180): `new Request(resultURL, reducedOptions)`. `RequestInit`
carries no `searchParams` member, so a `searchParams` key left in the
options is ignored by the `Request` constructor and appears in no field.
`signalAttached` records that the abort controller's signal is always
spread into the options. -/
structure Request where
  url : String
  method : Option String
  headers : Option StringMap
  body : Option JsonValue
  signalAttached : Bool
deriving Repr

/-- The request-construction part of the source's `internalFetch`
(src/fetchData.ts lines 153-184): destructure `type`, `urlPrefix` and
`hooks` away from the options, build the URL with `constructURL`, reduce
the remaining options with `optionsReducer`, and construct the `Request`.
The destructured keys are dropped from what reaches the `Request`;
the `Request` model carries no field for them (nor for `searchParams`,
which `RequestInit` ignores), so the embedding passes the options record
through `optionsReducer` unchanged. -/
def buildRequest (url : String) (originalOptions : FetchDataOptions)
    (httpMethod : HTTPMethod) : Request :=
  let resultURL := constructURL url originalOptions.urlBase
  let reduced := optionsReducer originalOptions httpMethod
  { url := resultURL
    method := reduced.method
    headers := reduced.headers
    body := reduced.body
    signalAttached := true }

/-- One shortcut produced by `createFetchData` (src/fetchData.ts lines
233-260), up to the constructed request: merge the client defaults with the
per-call options, spread the merged options over `\x7bmethod: boundMethod\x7d`
(so an explicit `method` key in the merged options wins over the bound
enum value), and hand the result to `internalFetch` together with the bound
method, which drives the body encoding. -/
def fetchShortcut (defaultOptions : FetchDataOptions) (httpMethod : HTTPMethod)
    (url : String) (callOptions : FetchDataOptions) : Request :=
  let merged := deepMergeOptions defaultOptions callOptions
  buildRequest url
    { merged with method := some (merged.method.getD (methodValue httpMethod)) }
    httpMethod

/-- The response as the dispatcher observes it: status line plus the value
each of the five extraction methods would produce. -/
structure Response where
  status : Nat
  statusText : String
  jsonBody : JsonValue
  textBody : String
  blobBody : List Nat
  formDataBody : StringMap
  arrayBufferBody : List Nat
deriving Repr

/-- The value `await response[expectedDataType]()` resolves with, tagged by
the extraction method that produced it. -/
inductive ResponseData where
  | json (j : JsonValue)
  | text (s : String)
  | blob (bytes : List Nat)
  | formData (fields : StringMap)
  | arrayBuffer (bytes : List Nat)
deriving Repr

/-- The duck-typed selection `response[expectedDataType]()` of
src/fetchData.ts line 213, as a fixed dispatch on the enum. -/
def extractResponseBody (r : Response) : ResponseBodyType → ResponseData
  | .json => .json r.jsonBody
  | .text => .text r.textBody
  | .blob => .blob r.blobBody
  | .formData => .formData r.formDataBody
  | .arrayBuffer => .arrayBuffer r.arrayBufferBody

/-- `response.ok` of the fetch standard: the status is in the inclusive
range 200-299. -/
def responseOk (status : Nat) : Bool :=
  200 ≤ status && status ≤ 299

/-- The errors a dispatched call can reject with: the `CommonHttpError`
thrown on a non-ok status (carrying code, response and request,
src/fetchData.ts lines 199-205), the abort error of the cancellation
primitive, and transport failures passed through unchanged. -/
inductive FetchError where
  | httpStatusError (code : Nat) (response : Response) (request : Request)
  | abortError
  | transportError (message : String)

/-- The envelope `internalFetch` resolves with (src/fetchData.ts lines
215-220 and the interface at lines 43-48). The `cancel` member is the
cancellation closure and carries no data; it is not modelled as a field. -/
structure FetchDataResponse where
  status : Nat
  statusText : String
  data : ResponseData

/-- The outcome interpretation of `internalFetch` after `await fetch`
(src/fetchData.ts lines 199-220): reject with the HTTP error when the
status is not ok, otherwise resolve the body with the extraction method
named by the `type` option (`json` when absent) and return the envelope. -/
def interpretResponse (request : Request) (type : Option ResponseBodyType)
    (response : Response) : Except FetchError FetchDataResponse :=
  if responseOk response.status then
    .ok { status := response.status
          statusText := response.statusText
          data := extractResponseBody response (type.getD ResponseBodyType.json) }
  else
    .error (.httpStatusError response.status response request)

/-- Property read `options.headers?.[key]` through the optional headers
object. -/
def lookupEntryOpt (headers : Option StringMap) (key : String) : Option String :=
  match headers with
  | none => none
  | some hs => lookupEntry hs key

/-- ASCII lowercasing of one character; header names are ASCII. -/
def asciiLower (c : Char) : Char :=
  if 'A' ≤ c ∧ c ≤ 'Z' then Char.ofNat (c.toNat + 32) else c

/-- Case-insensitive normal form of a header name. -/
def lowerKey (s : String) : String :=
  String.mk (s.toList.map asciiLower)

/-- Concrete options for exercising the structured-body rule: an
authentication header and an object body, as in the repository's tests. -/
def sampleStructuredOptions : FetchDataOptions :=
  { headers := some [("Authentication", "secret")]
    body := some (JsonValue.obj [("title", JsonValue.str "new title")]) }

/-- A concrete request value used in witnesses. -/
def sampleRequest : Request :=
  { url := "http://some-url.com/products"
    method := some "get"
    headers := none
    body := none
    signalAttached := true }

/-- A concrete 400 response. -/
def sampleBadResponse : Response :=
  { status := 400
    statusText := "Bad Request"
    jsonBody := JsonValue.null
    textBody := ""
    blobBody := []
    formDataBody := []
    arrayBufferBody := [] }

/-- A concrete 200 response carrying a JSON object body. -/
def sampleOkResponse : Response :=
  { status := 200
    statusText := "OK"
    jsonBody := JsonValue.obj [("key", JsonValue.str "value")]
    textBody := "Hello!"
    blobBody := [1, 2]
    formDataBody := [("k", "v")]
    arrayBufferBody := [3] }

end FetchDataModel

namespace FetchDataModel

@[simp] theorem mk_data (l : List Char) : (String.mk l).data = l := rfl

theorem toList_eq_data (s : String) : s.toList = s.data := rfl

@[simp] theorem strTail_data (s : String) : (strTail s).data = s.data.drop 1 := rfl

theorem string_eq_empty_iff (s : String) : s = "" ↔ s.data = [] := by
  constructor
  · intro h; subst h; rfl
  · intro h; apply String.ext; simpa using h

theorem jsStartsWith_slash_iff (r : String) :
    jsStartsWith r "/" = true ↔ ∃ t, r.data = '/' :: t := by
  unfold jsStartsWith
  simp only [toList_eq_data, show "/".data = ['/'] from rfl]
  cases hd : r.data with
  | nil => simp [List.isPrefixOf]
  | cons c t =>
    simp only [List.isPrefixOf, List.isPrefixOf_nil_left, Bool.and_true, beq_iff_eq]
    constructor
    · intro h; exact ⟨t, by rw [h]⟩
    · rintro ⟨t', ht'⟩
      cases ht'
      rfl

theorem jsEndsWith_slash_ne_empty (p : String) (h : jsEndsWith p "/" = true) : p ≠ "" := by
  intro he
  subst he
  exact absurd h (by decide)

theorem stripLeadingSlash_eq (r : String) (t : List Char) (h : r.data = '/' :: t) :
    stripLeadingSlash r = String.mk t := by
  unfold stripLeadingSlash
  rw [toList_eq_data, h]
  rfl

/-- C5: the URL composer is a pure total function on strings: with no
urlPrefix it returns the path unchanged; for a prefix P not ending in a
slash and a path R starting with one, the result is P + "/" + R[1:]; for a
prefix ending in a slash and a path starting with one, the result is
P + R[1:]; and a path without a leading slash is concatenated whole after
the slash-ensured prefix. -/
theorem C5_url_composer_contract (p r : String) :
    (constructURL r none = r)
    ∧ (jsEndsWith p "/" = false → jsStartsWith r "/" = true →
        constructURL r (some p) = p ++ "/" ++ strTail r)
    ∧ (jsEndsWith p "/" = true → jsStartsWith r "/" = true →
        constructURL r (some p) = p ++ strTail r)
    ∧ (p ≠ "" → jsStartsWith r "/" = false →
        constructURL r (some p) = (if jsEndsWith p "/" then p else p ++ "/") ++ r) := by
  refine ⟨rfl, ?_, ?_, ?_⟩
  · intro hend hstart
    obtain ⟨t, ht⟩ := (jsStartsWith_slash_iff r).1 hstart
    by_cases hp : p = ""
    · subst hp
      simp only [constructURL, if_pos rfl]
      apply String.ext
      simp [String.data_append, ht]
    · simp only [constructURL, if_neg hp, hstart, if_pos, hend, if_neg,
        Bool.false_eq_true, ite_false, ite_true]
      rw [stripLeadingSlash_eq r t ht]
      apply String.ext
      simp [String.data_append, ht]
  · intro hend hstart
    obtain ⟨t, ht⟩ := (jsStartsWith_slash_iff r).1 hstart
    have hp : p ≠ "" := jsEndsWith_slash_ne_empty p hend
    simp only [constructURL, if_neg hp, hstart, hend, ite_true]
    rw [stripLeadingSlash_eq r t ht]
    apply String.ext
    simp [String.data_append, ht]
  · intro hp hstart
    simp only [constructURL, if_neg hp, hstart, Bool.false_eq_true, ite_false]

/-- Witness for C5 at the concrete prefixes and paths of the spec's
scenarios. -/
theorem C5_witness :
    (constructURL "x" none = "x")
    ∧ (constructURL "/products" (some "http://site.com")
        = "http://site.com" ++ "/" ++ strTail "/products")
    ∧ (constructURL "/products" (some "http://site.com/")
        = "http://site.com/" ++ strTail "/products")
    ∧ (constructURL "products" (some "http://site.com")
        = (if jsEndsWith "http://site.com" "/" then "http://site.com"
           else "http://site.com" ++ "/") ++ "products") :=
  ⟨(C5_url_composer_contract "p" "x").1,
   (C5_url_composer_contract "http://site.com" "/products").2.1 (by decide) (by decide),
   (C5_url_composer_contract "http://site.com/" "/products").2.2.1 (by decide) (by decide),
   (C5_url_composer_contract "http://site.com" "products").2.2.2 (by decide) (by decide)⟩

/-- C10: composing a URL with an empty-string urlPrefix returns the path
unchanged, exactly as when no prefix is supplied at all. -/
theorem C10_empty_base (url : String) :
    constructURL url (some "") = url ∧ constructURL url (some "") = constructURL url none := by
  constructor
  · simp [constructURL]
  · simp [constructURL]

theorem optionsReducer_eq (o : FetchDataOptions) (m : HTTPMethod) :
    optionsReducer o m =
      if m = HTTPMethod.post ∨ m = HTTPMethod.put ∨ m = HTTPMethod.patch then
        { o with
            headers :=
              if isObjectOpt o.body && contentTypeFalsy o.headers then
                some (setEntry (o.headers.getD []) contentTypeTitle contentTypeValue)
              else o.headers,
            body :=
              if bodyTruthy o.body then
                some (JsonValue.str (jsonStringify (o.body.getD JsonValue.null)))
              else o.body }
      else o := by
  unfold optionsReducer
  split
  · by_cases h1 : (isObjectOpt o.body && contentTypeFalsy o.headers) = true
    · by_cases h2 : bodyTruthy o.body = true <;> simp [h1, h2]
    · by_cases h2 : bodyTruthy o.body = true <;> simp [h1, h2]
  · rfl

theorem optionsReducer_method (o : FetchDataOptions) (m : HTTPMethod) :
    (optionsReducer o m).method = o.method := by
  rw [optionsReducer_eq]
  split <;> rfl

theorem optionsReducer_urlBase (o : FetchDataOptions) (m : HTTPMethod) :
    (optionsReducer o m).urlBase = o.urlBase := by
  rw [optionsReducer_eq]
  split <;> rfl

theorem lookupEntry_append (a b : StringMap) (k : String) :
    lookupEntry (a ++ b) k = pickCall (lookupEntry a k) (lookupEntry b k) := by
  unfold lookupEntry
  rw [List.find?_append]
  cases a.find? (fun kv => kv.1 == k) <;> simp [pickCall, Option.or]

theorem lookupEntry_cons (kv : String × String) (rest : StringMap) (k : String) :
    lookupEntry (kv :: rest) k =
      if kv.1 == k then some kv.2 else lookupEntry rest k := by
  unfold lookupEntry
  by_cases h : kv.1 == k <;> simp [List.find?_cons, h]

theorem lookupEntry_setEntry_new (hs : StringMap) (k v : String)
    (h : lookupEntry hs k = none) : lookupEntry (setEntry hs k v) k = some v := by
  have hf : hs.find? (fun kv => kv.1 == k) = none := by
    unfold lookupEntry at h
    cases hfind : hs.find? (fun kv => kv.1 == k) with
    | none => rfl
    | some kv => rw [hfind] at h; simp at h
  unfold setEntry
  rw [hf]
  simp only [Option.isSome_none, Bool.false_eq_true, ite_false]
  rw [lookupEntry_append, h]
  simp [pickCall, lookupEntry_cons]

/-- C2 counterexample: for a POST whose body is the string "hello", the
body handed to the transport is the JSON serialization "\"hello\"" (with
quotes), not the original string unchanged as the claim states. -/
theorem C2_counterexample :
    (optionsReducer { body := some (JsonValue.str "hello") } HTTPMethod.post).body
        = some (JsonValue.str "\"hello\"")
    ∧ (optionsReducer { body := some (JsonValue.str "hello") } HTTPMethod.post).body
        ≠ some (JsonValue.str "hello") := by
  have hbody : (optionsReducer { body := some (JsonValue.str "hello") } HTTPMethod.post).body
      = some (JsonValue.str "\"hello\"") := rfl
  refine ⟨hbody, ?_⟩
  intro h
  rw [hbody] at h
  simp at h

/-- C2 amended: for POST, PUT and PATCH calls whose body option is a
string, no content-type header is injected (the headers are passed through
entirely unchanged), but the body is not passed unchanged: a non-empty
string body is replaced by its JSON serialization (the quoted, escaped
string), while an empty string body is left as-is. -/
theorem C2_string_body (m : HTTPMethod)
    (hm : m = HTTPMethod.post ∨ m = HTTPMethod.put ∨ m = HTTPMethod.patch)
    (opts : FetchDataOptions) (s : String) (hb : opts.body = some (JsonValue.str s)) :
    (optionsReducer opts m).headers = opts.headers
    ∧ (optionsReducer opts m).body =
        some (JsonValue.str (if s = "" then s else jsonStringify (JsonValue.str s))) := by
  rw [optionsReducer_eq, if_pos hm]
  constructor
  · simp [hb, isObjectOpt, isObjectVal]
  · by_cases hs : s = "" <;> simp [hb, bodyTruthy, hs]

/-- Witness for C2 (amended) at a PUT call with body "hi". -/
theorem C2_string_body_witness :
    (optionsReducer { body := some (JsonValue.str "hi") } HTTPMethod.put).headers
        = ({ body := some (JsonValue.str "hi") } : FetchDataOptions).headers
    ∧ (optionsReducer { body := some (JsonValue.str "hi") } HTTPMethod.put).body
        = some (JsonValue.str (if "hi" = "" then "hi" else jsonStringify (JsonValue.str "hi"))) :=
  C2_string_body HTTPMethod.put (Or.inr (Or.inl rfl))
    { body := some (JsonValue.str "hi") } "hi" rfl

theorem lookupEntry_eq_none_of_no_entry (hs : StringMap) (key : String)
    (hkey : lowerKey key = "content-type")
    (h : ∀ kv ∈ hs, lowerKey kv.1 ≠ "content-type") :
    lookupEntry hs key = none := by
  unfold lookupEntry
  have : hs.find? (fun kv => kv.1 == key) = none := by
    rw [List.find?_eq_none]
    intro kv hmem
    intro hbeq
    exact absurd (by rw [beq_iff_eq.mp hbeq, hkey]) (h kv hmem)
  rw [this]
  rfl

theorem contentTypeFalsy_of_no_entry (headers : Option StringMap)
    (h : ∀ kv ∈ headers.getD [], lowerKey kv.1 ≠ "content-type") :
    contentTypeFalsy headers = true := by
  cases headers with
  | none => rfl
  | some hs =>
    simp only [contentTypeFalsy]
    rw [lookupEntry_eq_none_of_no_entry hs contentTypeTitle (by decide) (by simpa using h)]

/-- C3: for POST, PUT and PATCH calls whose body is a structured
(non-string, non-null object or array) value and whose headers contain no
content-type entry (under case-insensitive comparison of header names), the
options passed to the transport carry the JSON content-type header and a
body equal to the JSON serialization of the original body; GET and DELETE
calls pass the options through entirely unchanged, so the body is never
serialized and no header is injected even when a body is present. -/
theorem C3_structured_body (m : HTTPMethod) (opts : FetchDataOptions) (b : JsonValue) :
    ((m = HTTPMethod.post ∨ m = HTTPMethod.put ∨ m = HTTPMethod.patch) →
      opts.body = some b → isObjectVal b = true →
      (∀ kv ∈ opts.headers.getD [], lowerKey kv.1 ≠ "content-type") →
      lookupEntryOpt (optionsReducer opts m).headers contentTypeTitle = some contentTypeValue
      ∧ (optionsReducer opts m).body = some (JsonValue.str (jsonStringify b)))
    ∧ ((m = HTTPMethod.get ∨ m = HTTPMethod.delete) → optionsReducer opts m = opts) := by
  constructor
  · intro hm hb hobj hct
    have hfalsy : contentTypeFalsy opts.headers = true := contentTypeFalsy_of_no_entry _ hct
    have hcond : (isObjectOpt opts.body && contentTypeFalsy opts.headers) = true := by
      rw [hb]
      simp [isObjectOpt, hobj, hfalsy]
    have htruthy : bodyTruthy (some b) = true := by
      cases b <;> simp_all [isObjectVal, bodyTruthy]
    have hnone : lookupEntry (opts.headers.getD []) contentTypeTitle = none := by
      apply lookupEntry_eq_none_of_no_entry _ _ (by decide)
      intro kv hmem
      exact hct kv (by simpa using hmem)
    rw [optionsReducer_eq, if_pos hm]
    constructor
    · simp only [hcond, ite_true, lookupEntryOpt]
      exact lookupEntry_setEntry_new _ _ _ hnone
    · simp [hb, htruthy]
  · intro hm
    rcases hm with hm | hm <;> subst hm <;> rw [optionsReducer_eq] <;> simp

/-- Witness for C3 at a PUT call with an object body and an unrelated
header, and at a GET call on the same options. -/
theorem C3_witness :
    (lookupEntryOpt (optionsReducer sampleStructuredOptions HTTPMethod.put).headers
        contentTypeTitle = some contentTypeValue
      ∧ (optionsReducer sampleStructuredOptions HTTPMethod.put).body
        = some (JsonValue.str (jsonStringify (JsonValue.obj [("title", JsonValue.str "new title")]))))
    ∧ optionsReducer sampleStructuredOptions HTTPMethod.get = sampleStructuredOptions :=
  ⟨(C3_structured_body HTTPMethod.put sampleStructuredOptions
      (JsonValue.obj [("title", JsonValue.str "new title")])).1
      (Or.inr (Or.inl rfl)) rfl rfl (by decide),
   (C3_structured_body HTTPMethod.get sampleStructuredOptions
      (JsonValue.obj [("title", JsonValue.str "new title")])).2 (Or.inl rfl)⟩

/-- C4 counterexample: the POST shortcut invoked with per-call options
carrying an explicit method entry "get" constructs a request whose method
is "get", not the bound "post" — per-call options can change the method,
contrary to the claim. -/
theorem C4_counterexample :
    (fetchShortcut {} HTTPMethod.post "u" { method := some "get" }).method = some "get"
    ∧ (fetchShortcut {} HTTPMethod.post "u" { method := some "get" }).method
        ≠ some (methodValue HTTPMethod.post) := by
  refine ⟨rfl, ?_⟩
  intro h
  rw [show (fetchShortcut {} HTTPMethod.post "u" { method := some "get" }).method
      = some "get" from rfl] at h
  simp [methodValue] at h

/-- C4 amended: the shortcut for method m constructs a request whose HTTP
method equals m's enum value whenever the merged options carry no explicit
method entry; an explicit method entry in the merged options overrides the
bound value, because the merged options are spread after the bound method. -/
theorem C4_method_bound (defaults callOptions : FetchDataOptions) (m : HTTPMethod)
    (url : String) (h : (deepMergeOptions defaults callOptions).method = none) :
    (fetchShortcut defaults m url callOptions).method = some (methodValue m) := by
  simp only [fetchShortcut, buildRequest, optionsReducer_method]
  simp [h]

/-- Witness for C4 (amended): the DELETE shortcut with empty defaults and
empty call options transmits method "delete". -/
theorem C4_method_bound_witness :
    (deepMergeOptions {} {}).method = none
    ∧ (fetchShortcut {} HTTPMethod.delete "x" {}).method = some (methodValue HTTPMethod.delete) :=
  ⟨rfl, C4_method_bound {} {} HTTPMethod.delete "x" rfl⟩

/-- C1 counterexample: a GET dispatched to path "/items?a=1" with
urlPrefix "http://site.com" and searchParams "b=2" transmits to a URL whose
query string is still "a=1": the query string is not set from searchParams. -/
theorem C1_counterexample :
    queryStringOf (fetchShortcut {} HTTPMethod.get "/items?a=1"
      { urlBase := some "http://site.com", searchParams := some (.str "b=2") }).url = "a=1"
    ∧ queryStringOf (fetchShortcut {} HTTPMethod.get "/items?a=1"
      { urlBase := some "http://site.com", searchParams := some (.str "b=2") }).url ≠ "b=2" := by
  refine ⟨rfl, ?_⟩
  decide

/-- C1 amended: the searchParams option has no effect on the URL the
dispatcher transmits to — the URL is exactly the composition of the
urlPrefix and the path, and any query string embedded in the path is
transmitted unchanged; the constructed request is identical whatever
searchParams holds. -/
theorem C1_searchParams_ignored (url : String) (opts : FetchDataOptions)
    (m : HTTPMethod) (sp : Option SearchParams) :
    (buildRequest url opts m).url = constructURL url opts.urlBase
    ∧ buildRequest url { opts with searchParams := sp } m
        = buildRequest url { opts with searchParams := none } m := by
  constructor
  · rfl
  · unfold buildRequest
    rw [optionsReducer_eq, optionsReducer_eq]
    by_cases hm : m = HTTPMethod.post ∨ m = HTTPMethod.put ∨ m = HTTPMethod.patch <;>
      simp [hm]

/-- C6: for every call whose response arrives with a status outside
200-299, the call is rejected (never resolved) with an HTTP error carrying
the response's status code, the response, and the originating request. -/
theorem C6_http_error (request : Request) (bodyType : Option ResponseBodyType)
    (response : Response) (h : response.status < 200 ∨ 299 < response.status) :
    interpretResponse request bodyType response
      = .error (.httpStatusError response.status response request) := by
  have hok : responseOk response.status = false := by
    simp only [responseOk, Bool.and_eq_false_iff, decide_eq_false_iff_not, not_le]
    omega
  simp [interpretResponse, hok]

/-- Witness for C6: a server responding with status 400 makes the call
reject with the HTTP error carrying code 400. -/
theorem C6_witness :
    (400 < 200 ∨ 299 < 400)
    ∧ interpretResponse sampleRequest none sampleBadResponse
        = .error (.httpStatusError 400 sampleBadResponse sampleRequest) :=
  ⟨by omega, C6_http_error sampleRequest none sampleBadResponse (by decide)⟩

/-- C8: for every call whose response status is within 200-299, the call
resolves with the envelope of status, status text and data, where data is
produced by the extraction method named by the type option, defaulting to
json when no type is given. -/
theorem C8_success_envelope (request : Request) (bodyType : Option ResponseBodyType)
    (response : Response) (h200 : 200 ≤ response.status) (h299 : response.status ≤ 299) :
    interpretResponse request bodyType response
      = .ok { status := response.status
              statusText := response.statusText
              data := extractResponseBody response (bodyType.getD ResponseBodyType.json) } := by
  have hok : responseOk response.status = true := by
    simp only [responseOk, Bool.and_eq_true, decide_eq_true_eq]
    omega
  simp [interpretResponse, hok]

/-- Witness for C8: a 200 response resolved with the default json
extraction and with the text extraction. -/
theorem C8_witness :
    (200 ≤ 200 ∧ (200 : Nat) ≤ 299)
    ∧ interpretResponse sampleRequest none sampleOkResponse
        = .ok { status := 200
                statusText := "OK"
                data := ResponseData.json (JsonValue.obj [("key", JsonValue.str "value")]) }
    ∧ interpretResponse sampleRequest (some ResponseBodyType.text) sampleOkResponse
        = .ok { status := 200
                statusText := "OK"
                data := ResponseData.text "Hello!" } :=
  ⟨⟨by omega, by omega⟩,
   C8_success_envelope sampleRequest none sampleOkResponse (by decide) (by decide),
   C8_success_envelope sampleRequest (some ResponseBodyType.text) sampleOkResponse
     (by decide) (by decide)⟩

theorem lookupEntry_overrideMap (t s : StringMap) (k : String) :
    lookupEntry (t.map (fun kv => (kv.1, (lookupEntry s kv.1).getD kv.2))) k
      = (lookupEntry t k).map (fun v => (lookupEntry s k).getD v) := by
  induction t with
  | nil => rfl
  | cons kv rest ih =>
    rw [List.map_cons, lookupEntry_cons, lookupEntry_cons]
    by_cases hk : kv.1 == k
    · have hk1 : kv.1 = k := beq_iff_eq.mp hk
      simp [hk, hk1]
    · simp [hk, ih]

theorem lookupEntry_filterNew (t s : StringMap) (k : String)
    (h : lookupEntry t k = none) :
    lookupEntry (s.filter (fun kv => (lookupEntry t kv.1).isNone)) k = lookupEntry s k := by
  induction s with
  | nil => rfl
  | cons kv rest ih =>
    by_cases hk : kv.1 == k
    · have hk1 : kv.1 = k := beq_iff_eq.mp hk
      have hkeep : (lookupEntry t kv.1).isNone = true := by rw [hk1, h]; rfl
      rw [List.filter_cons, if_pos hkeep, lookupEntry_cons, lookupEntry_cons]
      simp [hk, ih]
    · cases hkeep : (lookupEntry t kv.1).isNone with
      | false =>
        rw [List.filter_cons, if_neg (by simp [hkeep]), ih, lookupEntry_cons]
        simp [hk]
      | true =>
        rw [List.filter_cons, if_pos hkeep, lookupEntry_cons, lookupEntry_cons]
        simp [hk, ih]

theorem lookupEntry_mergeStringMap (t s : StringMap) (k : String) :
    lookupEntry (mergeStringMap t s) k
      = pickCall (lookupEntry s k) (lookupEntry t k) := by
  unfold mergeStringMap
  rw [lookupEntry_append, lookupEntry_overrideMap]
  cases ht : lookupEntry t k with
  | some v => cases hs : lookupEntry s k <;> simp [pickCall]
  | none =>
    rw [lookupEntry_filterNew t s k ht]
    cases hs : lookupEntry s k <;> simp [pickCall]

/-- C9: the options used for a call are the deep merge of the client
defaults with the call options: per key the call options take precedence,
and the nested headers mapping merges key by key — a header present only in
the defaults survives even when the call options bring their own headers —
rather than being replaced wholesale. The merge is a pure function
producing a new value from the two inputs. -/
theorem C9_merge_policy (defaults callOptions : FetchDataOptions) :
    (∀ k, lookupEntryOpt (deepMergeOptions defaults callOptions).headers k
        = pickCall (lookupEntryOpt callOptions.headers k) (lookupEntryOpt defaults.headers k))
    ∧ (deepMergeOptions defaults callOptions).urlBase
        = pickCall callOptions.urlBase defaults.urlBase
    ∧ (deepMergeOptions defaults callOptions).type
        = pickCall callOptions.type defaults.type
    ∧ (deepMergeOptions defaults callOptions).method
        = pickCall callOptions.method defaults.method := by
  refine ⟨?_, rfl, rfl, rfl⟩
  intro k
  show lookupEntryOpt (mergeStringMapOpt defaults.headers callOptions.headers) k = _
  cases defaults.headers with
  | none =>
    cases callOptions.headers with
    | none => rfl
    | some s =>
      show lookupEntry s k = _
      cases hs : lookupEntry s k <;> simp [pickCall, lookupEntryOpt, hs]
  | some t =>
    cases callOptions.headers with
    | none =>
      show lookupEntry t k = _
      cases ht : lookupEntry t k <;> simp [pickCall, lookupEntryOpt, ht]
    | some s =>
      show lookupEntry (mergeStringMap t s) k = _
      rw [lookupEntry_mergeStringMap]
      rfl

end FetchDataModel
